import Mathlib

/-!
Verification of the llm-d inference-scheduler routing sidecar.

The definitions below are a shallow embedding of the Go source of the
sidecar's request-orchestration proxy:
- the JSON object model mirrors `map[string]any` as produced by
  `encoding/json.Unmarshal` (pkg/sidecar/proxy/connector_nixlv2.go);
- `runNIXLProtocolV2` mirrors the NIXL v2 protocol runner
  (pkg/sidecar/proxy/connector_nixlv2.go);
- `prefillerProxyHandler` mirrors the peer-proxy LRU cache
  (pkg/sidecar/proxy/proxy.go);
- `IsAllowed`, `normalizeHostPort`, `rebuildAllowlist` mirror the SSRF
  allowlist validator (allowlist.go);
- `goSplitHostPort` mirrors Go's `net.SplitHostPort`;
- `chatCompletionsHandler` mirrors the chat-completion dispatcher
  (pkg/sidecar/proxy/chat_completions.go).
-/

/-- JSON values, as Go's `encoding/json` produces them when unmarshalling
into `map[string]any`.  Numeric values relevant to the claims are integers. -/
inductive JSON where
  | null
  | bool (b : Bool)
  | num (n : Int)
  | str (s : String)
  | arr (elems : List JSON)
  | obj (fields : List (String × JSON))

/-- A Go `map[string]any` parsed from a JSON object, modelled as an
association list.  All operations keep keys unique (as Go maps do). -/
abbrev GoMap := List (String × JSON)

/-- Go map read `v, ok := m[k]` : `some v` when the key is present. -/
def mapGet (m : GoMap) (k : String) : Option JSON :=
  match m with
  | [] => none
  | (k', v) :: rest => if k' = k then some v else mapGet rest k

/-- Go `delete(m, k)`. -/
def mapErase : GoMap → String → GoMap
  | [], _ => []
  | p :: rest, k => if p.1 = k then mapErase rest k else p :: mapErase rest k

/-- Go map write `m[k] = v` (replaces any previous binding of `k`). -/
def mapInsert (m : GoMap) (k : String) (v : JSON) : GoMap :=
  (k, v) :: mapErase m k

theorem mapGet_erase_self (m : GoMap) (k : String) :
    mapGet (mapErase m k) k = none := by
  induction m with
  | nil => rfl
  | cons p rest ih =>
    by_cases h : p.1 = k
    · simpa [mapErase, h] using ih
    · simpa [mapErase, h, mapGet] using ih

theorem mapGet_erase_ne (m : GoMap) (k k' : String) (h : k' ≠ k) :
    mapGet (mapErase m k) k' = mapGet m k' := by
  induction m with
  | nil => rfl
  | cons p rest ih =>
    by_cases hp : p.1 = k
    · have hne : p.1 ≠ k' := fun hk => h (hk ▸ hp)
      rw [mapErase, if_pos hp, ih]
      show mapGet rest k' = mapGet (p :: rest) k'
      rw [mapGet, if_neg hne]
    · rw [mapErase, if_neg hp]
      by_cases hk' : p.1 = k'
      · rw [mapGet, if_pos hk']
        show _ = mapGet (p :: rest) k'
        rw [mapGet, if_pos hk']
      · rw [mapGet, if_neg hk', ih]
        show _ = mapGet (p :: rest) k'
        rw [mapGet, if_neg hk']

theorem mapGet_insert_self (m : GoMap) (k : String) (v : JSON) :
    mapGet (mapInsert m k v) k = some v := by
  simp [mapInsert, mapGet]

theorem mapGet_insert_ne (m : GoMap) (k k' : String) (v : JSON) (h : k' ≠ k) :
    mapGet (mapInsert m k v) k' = mapGet m k' := by
  have hk : k ≠ k' := fun hk => h hk.symm
  simp only [mapInsert, mapGet, if_neg hk]
  exact mapGet_erase_ne m k k' h

/-! ### Request-field and header names (pkg/sidecar/proxy/proxy.go) -/

def requestHeaderRequestID : String := "x-request-id"

def requestFieldKVTransferParams : String := "kv_transfer_params"

def requestFieldMaxTokens : String := "max_tokens"

def requestFieldMaxCompletionTokens : String := "max_completion_tokens"

def requestFieldDoRemotePrefill : String := "do_remote_prefill"

def requestFieldDoRemoteDecode : String := "do_remote_decode"

def requestFieldRemoteBlockIDs : String := "remote_block_ids"

def requestFieldRemoteEngineID : String := "remote_engine_id"

def requestFieldRemoteHost : String := "remote_host"

def requestFieldRemotePort : String := "remote_port"

def requestFieldStream : String := "stream"

def requestFieldStreamOptions : String := "stream_options"

/-! ### UUIDs (github.com/google/uuid): `type UUID [16]byte` and `String()` -/

/-- A UUID value: sixteen bytes, as in `type UUID [16]byte`. -/
structure UUID where
  b0 : Nat
  b1 : Nat
  b2 : Nat
  b3 : Nat
  b4 : Nat
  b5 : Nat
  b6 : Nat
  b7 : Nat
  b8 : Nat
  b9 : Nat
  b10 : Nat
  b11 : Nat
  b12 : Nat
  b13 : Nat
  b14 : Nat
  b15 : Nat

/-- The lowercase hex alphabet used by Go's `encoding/hex`
(`hextable = "0123456789abcdef"`). -/
def hexAlphabet : List Char := "0123456789abcdef".data

def hexChar (n : Nat) : Char := hexAlphabet.getD n '0'

/-- Encoding of one byte by `hex.Encode`: two lowercase hex digits. -/
def byteToHex (b : Nat) : List Char := [hexChar (b % 256 / 16), hexChar (b % 16)]

def bytesToHex (bs : List Nat) : List Char := (bs.map byteToHex).flatten

/-- Rendering of `UUID.String()`: hex groups of 4-2-2-2-6 bytes joined by dashes. -/
def uuidString (u : UUID) : String :=
  ⟨bytesToHex [u.b0, u.b1, u.b2, u.b3] ++
    '-' :: bytesToHex [u.b4, u.b5] ++
    '-' :: bytesToHex [u.b6, u.b7] ++
    '-' :: bytesToHex [u.b8, u.b9] ++
    '-' :: bytesToHex [u.b10, u.b11, u.b12, u.b13, u.b14, u.b15]⟩

def isHexChar (c : Char) : Bool := hexAlphabet.contains c

/-- Consume exactly `n` hex characters from the front of a character list. -/
def hexRun : Nat → List Char → Option (List Char)
  | 0, l => some l
  | _ + 1, [] => none
  | n + 1, c :: l => if isHexChar c then hexRun n l else none

def expectDash : List Char → Option (List Char)
  | '-' :: l => some l
  | _ => none

/-- A well-formed textual UUID: `8-4-4-4-12` lowercase hex digit groups. -/
def isWellFormedUUIDString (s : String) : Bool :=
  match (((((((((hexRun 8 s.data).bind expectDash).bind (hexRun 4)).bind
      expectDash).bind (hexRun 4)).bind expectDash).bind (hexRun 4)).bind
      expectDash).bind (hexRun 12)) with
  | some [] => true
  | _ => false

/-! ### Error envelopes (pkg/sidecar/proxy/errors.go) -/

/-- The vLLM-style error response envelope written by the sidecar. -/
structure ErrorResponse where
  object : String
  message : String
  type' : String
  param : String
  code : Nat

/-- The envelope `errorJSONInvalid` sends for malformed JSON, with HTTP 400. -/
def errorJSONInvalid (msg : String) : ErrorResponse :=
  { object := "error", message := msg, type' := "BadRequestError", param := "", code := 400 }

/-- The envelope `errorBadGateway` sends for internal failures, with HTTP 502. -/
def errorBadGateway (msg : String) : ErrorResponse :=
  { object := "error", message := msg, type' := "BadGateway", param := "", code := 502 }

/-! ### The NIXL v2 protocol runner (pkg/sidecar/proxy/connector_nixlv2.go) -/

/-- A sub-request (prefill or decode) emitted by the protocol runner:
the `x-request-id` header value added to the cloned request, and
the JSON body installed into it. -/
structure SubRequest where
  requestID : String
  body : GoMap

/-- What the runner writes back to the client. -/
inductive ClientResponse where
  | rawBadRequest (message : String)
  | errorEnvelope (status : Nat) (envelope : ErrorResponse)
  | mirroredStatus (status : Nat)
  | decodeProxied

/-- The environment of one `runNIXLProtocolV2` invocation: the outcomes of
its effectful steps, each an input to the pure model.
`readBody` is `io.ReadAll(r.Body)`; `parsedBody` is
`json.Unmarshal(original, &completionRequest)`; `newUUID` is `uuid.NewUUID()`;
`prefillHandler` is `s.prefillerProxyHandler(prefillPodHostPort)`;
`prefillStatus` is `pw.statusCode` after the prefill round-trip and
`prefillParsed` is `json.Unmarshal([]byte(pw.buffer.String()), ...)`. -/
structure ProtocolEnv where
  readBody : Except String Unit
  parsedBody : Except String GoMap
  newUUID : Except String UUID
  prefillHandler : Except String Unit
  prefillStatus : Nat
  prefillParsed : Except String GoMap

/-- The result of one `runNIXLProtocolV2` invocation: the prefill sub-request
served to the prefill peer (if that point was reached), the decode sub-request
served to the local decoder (if reached), and the client-visible response. -/
structure RunResult where
  prefillRequest : Option SubRequest
  decodeRequest : Option SubRequest
  response : ClientResponse

/-- The `kv_transfer_params` object installed into the prefill body. -/
def kvTransferParamsPrefill : JSON :=
  .obj [(requestFieldDoRemoteDecode, .bool true),
        (requestFieldDoRemotePrefill, .bool false),
        (requestFieldRemoteEngineID, .null),
        (requestFieldRemoteBlockIDs, .null),
        (requestFieldRemoteHost, .null),
        (requestFieldRemotePort, .null)]

/-- The prefill-body mutations of `runNIXLProtocolV2`, in source order:
set `kv_transfer_params`, set `stream = false`, delete `stream_options`,
set `max_tokens = 1`. -/
def buildPrefillBody (completionRequest : GoMap) : GoMap :=
  mapInsert
    (mapErase
      (mapInsert
        (mapInsert completionRequest requestFieldKVTransferParams kvTransferParamsPrefill)
        requestFieldStream (.bool false))
      requestFieldStreamOptions)
    requestFieldMaxTokens (.num 1)

/-- Go's `if ok { m[k] = v }` restore idiom: write back a saved original
value only when the key had been present. -/
def mapRestore (m : GoMap) (k : String) : Option JSON → GoMap
  | some v => mapInsert m k v
  | none => m

/-- The decode-body mutations of `runNIXLProtocolV2`: starting from the map
already rewritten for prefill, delete `stream` and restore it only when the
client had it, restore `stream_options` when the client had it, delete
`max_tokens` and restore it only when the client had it, and overwrite
`kv_transfer_params` with the value extracted from the prefiller response
(Go `nil`, i.e. JSON null, when that field was missing).  The saved originals
(`streamValue, streamOk := completionRequest[...]` etc.) were read from the
client's parsed object before the prefill mutations. -/
def buildDecodeBody (completionRequest : GoMap) (pKV : Option JSON) : GoMap :=
  let streamValue := mapGet completionRequest requestFieldStream
  let streamOptionsValue := mapGet completionRequest requestFieldStreamOptions
  let maxTokensValue := mapGet completionRequest requestFieldMaxTokens
  let d := mapErase (buildPrefillBody completionRequest) requestFieldStream
  let d := mapRestore d requestFieldStream streamValue
  let d := mapRestore d requestFieldStreamOptions streamOptionsValue
  let d := mapErase d requestFieldMaxTokens
  let d := mapRestore d requestFieldMaxTokens maxTokensValue
  mapInsert d requestFieldKVTransferParams (pKV.getD .null)

/-- Shallow embedding of `(*Server).runNIXLProtocolV2`
(pkg/sidecar/proxy/connector_nixlv2.go). -/
def runNIXLProtocolV2 (env : ProtocolEnv) : RunResult :=
  match env.readBody with
  | .error e => ⟨none, none, .rawBadRequest e⟩
  | .ok () =>
    match env.parsedBody with
    | .error e => ⟨none, none, .errorEnvelope 400 (errorJSONInvalid e)⟩
    | .ok completionRequest =>
      match env.newUUID with
      | .error e => ⟨none, none, .errorEnvelope 502 (errorBadGateway e)⟩
      | .ok u =>
        let uuidStr := uuidString u
        let pbody := buildPrefillBody completionRequest
        match env.prefillHandler with
        | .error e => ⟨none, none, .errorEnvelope 502 (errorBadGateway e)⟩
        | .ok () =>
          let preq : SubRequest := ⟨uuidStr, pbody⟩
          if env.prefillStatus < 200 ∨ 300 ≤ env.prefillStatus then
            ⟨some preq, none, .mirroredStatus env.prefillStatus⟩
          else
            match env.prefillParsed with
            | .error e => ⟨some preq, none, .errorEnvelope 400 (errorJSONInvalid e)⟩
            | .ok prefillerResponse =>
              let pKV := mapGet prefillerResponse requestFieldKVTransferParams
              let dreq : SubRequest := ⟨uuidStr, buildDecodeBody completionRequest pKV⟩
              ⟨some preq, some dreq, .decodeProxied⟩

theorem mapGet_restore_self (m : GoMap) (k : String) (o : Option JSON)
    (h : mapGet m k = none) : mapGet (mapRestore m k o) k = o := by
  cases o with
  | none => exact h
  | some v => exact mapGet_insert_self m k v

theorem mapGet_restore_ne (m : GoMap) (k k' : String) (o : Option JSON)
    (h : k' ≠ k) : mapGet (mapRestore m k o) k' = mapGet m k' := by
  cases o with
  | none => rfl
  | some v => exact mapGet_insert_ne m k k' v h

theorem buildPrefillBody_maxTokens (m : GoMap) :
    mapGet (buildPrefillBody m) requestFieldMaxTokens = some (.num 1) :=
  mapGet_insert_self _ _ _

theorem buildPrefillBody_stream (m : GoMap) :
    mapGet (buildPrefillBody m) requestFieldStream = some (.bool false) := by
  unfold buildPrefillBody
  rw [mapGet_insert_ne _ _ _ _ (by decide),
    mapGet_erase_ne _ _ _ (by decide),
    mapGet_insert_self]

theorem buildPrefillBody_streamOptions (m : GoMap) :
    mapGet (buildPrefillBody m) requestFieldStreamOptions = none := by
  unfold buildPrefillBody
  rw [mapGet_insert_ne _ _ _ _ (by decide), mapGet_erase_self]

theorem buildPrefillBody_kv (m : GoMap) :
    mapGet (buildPrefillBody m) requestFieldKVTransferParams =
      some kvTransferParamsPrefill := by
  unfold buildPrefillBody
  rw [mapGet_insert_ne _ _ _ _ (by decide),
    mapGet_erase_ne _ _ _ (by decide),
    mapGet_insert_ne _ _ _ _ (by decide),
    mapGet_insert_self]

theorem buildPrefillBody_maxCompletionTokens (m : GoMap) :
    mapGet (buildPrefillBody m) requestFieldMaxCompletionTokens =
      mapGet m requestFieldMaxCompletionTokens := by
  unfold buildPrefillBody
  rw [mapGet_insert_ne _ _ _ _ (by decide),
    mapGet_erase_ne _ _ _ (by decide),
    mapGet_insert_ne _ _ _ _ (by decide),
    mapGet_insert_ne _ _ _ _ (by decide)]

theorem buildDecodeBody_kv (m : GoMap) (pKV : Option JSON) :
    mapGet (buildDecodeBody m pKV) requestFieldKVTransferParams =
      some (pKV.getD .null) :=
  mapGet_insert_self _ _ _

theorem buildDecodeBody_maxTokens (m : GoMap) (pKV : Option JSON) :
    mapGet (buildDecodeBody m pKV) requestFieldMaxTokens =
      mapGet m requestFieldMaxTokens := by
  unfold buildDecodeBody
  rw [mapGet_insert_ne _ _ _ _ (by decide),
    mapGet_restore_self _ _ _ (mapGet_erase_self _ _)]

theorem buildDecodeBody_stream (m : GoMap) (pKV : Option JSON) :
    mapGet (buildDecodeBody m pKV) requestFieldStream =
      mapGet m requestFieldStream := by
  unfold buildDecodeBody
  rw [mapGet_insert_ne _ _ _ _ (by decide),
    mapGet_restore_ne _ _ _ _ (by decide),
    mapGet_erase_ne _ _ _ (by decide),
    mapGet_restore_ne _ _ _ _ (by decide),
    mapGet_restore_self _ _ _ (mapGet_erase_self _ _)]

theorem buildDecodeBody_streamOptions (m : GoMap) (pKV : Option JSON) :
    mapGet (buildDecodeBody m pKV) requestFieldStreamOptions =
      mapGet m requestFieldStreamOptions := by
  unfold buildDecodeBody
  rw [mapGet_insert_ne _ _ _ _ (by decide),
    mapGet_restore_ne _ _ _ _ (by decide),
    mapGet_erase_ne _ _ _ (by decide),
    mapGet_restore_self]
  rw [mapGet_restore_ne _ _ _ _ (by decide),
    mapGet_erase_ne _ _ _ (by decide),
    buildPrefillBody_streamOptions]

theorem buildDecodeBody_maxCompletionTokens (m : GoMap) (pKV : Option JSON) :
    mapGet (buildDecodeBody m pKV) requestFieldMaxCompletionTokens =
      mapGet m requestFieldMaxCompletionTokens := by
  unfold buildDecodeBody
  rw [mapGet_insert_ne _ _ _ _ (by decide),
    mapGet_restore_ne _ _ _ _ (by decide),
    mapGet_erase_ne _ _ _ (by decide),
    mapGet_restore_ne _ _ _ _ (by decide),
    mapGet_restore_ne _ _ _ _ (by decide),
    mapGet_erase_ne _ _ _ (by decide),
    buildPrefillBody_maxCompletionTokens]

theorem runNIXLProtocolV2_prefill_some (env : ProtocolEnv) (p : SubRequest)
    (h : (runNIXLProtocolV2 env).prefillRequest = some p) :
    ∃ m u, env.readBody = .ok () ∧ env.parsedBody = .ok m ∧ env.newUUID = .ok u ∧
      env.prefillHandler = .ok () ∧ p = ⟨uuidString u, buildPrefillBody m⟩ := by
  obtain ⟨rb, pb, nu, ph, ps, pp⟩ := env
  cases rb with
  | error e => simp [runNIXLProtocolV2] at h
  | ok v =>
    cases pb with
    | error e => simp [runNIXLProtocolV2] at h
    | ok m =>
      cases nu with
      | error e => simp [runNIXLProtocolV2] at h
      | ok u =>
        cases ph with
        | error e => simp [runNIXLProtocolV2] at h
        | ok w =>
          refine ⟨m, u, rfl, rfl, rfl, rfl, ?_⟩
          by_cases hst : ps < 200 ∨ 300 ≤ ps
          · simp [runNIXLProtocolV2, hst] at h
            exact h.symm
          · cases pp with
            | error e =>
              simp [runNIXLProtocolV2, hst] at h
              exact h.symm
            | ok pr =>
              simp [runNIXLProtocolV2, hst] at h
              exact h.symm

theorem runNIXLProtocolV2_decode_some (env : ProtocolEnv) (d : SubRequest)
    (h : (runNIXLProtocolV2 env).decodeRequest = some d) :
    ∃ m u pr, env.parsedBody = .ok m ∧ env.newUUID = .ok u ∧
      env.prefillParsed = .ok pr ∧
      200 ≤ env.prefillStatus ∧ env.prefillStatus < 300 ∧
      d = ⟨uuidString u,
        buildDecodeBody m (mapGet pr requestFieldKVTransferParams)⟩ := by
  obtain ⟨rb, pb, nu, ph, ps, pp⟩ := env
  cases rb with
  | error e => simp [runNIXLProtocolV2] at h
  | ok v =>
    cases pb with
    | error e => simp [runNIXLProtocolV2] at h
    | ok m =>
      cases nu with
      | error e => simp [runNIXLProtocolV2] at h
      | ok u =>
        cases ph with
        | error e => simp [runNIXLProtocolV2] at h
        | ok w =>
          by_cases hst : ps < 200 ∨ 300 ≤ ps
          · simp [runNIXLProtocolV2, hst] at h
          · cases pp with
            | error e => simp [runNIXLProtocolV2, hst] at h
            | ok pr =>
              push_neg at hst
              refine ⟨m, u, pr, rfl, rfl, rfl, hst.1, hst.2, ?_⟩
              simp [runNIXLProtocolV2, not_or.mpr (⟨not_lt.mpr hst.1, not_le.mpr hst.2⟩ :
                ¬ps < 200 ∧ ¬300 ≤ ps)] at h
              exact h.symm

theorem runNIXLProtocolV2_non2xx (env : ProtocolEnv) (m : GoMap) (u : UUID)
    (hrb : env.readBody = .ok ()) (hm : env.parsedBody = .ok m)
    (hu : env.newUUID = .ok u) (hh : env.prefillHandler = .ok ())
    (hst : env.prefillStatus < 200 ∨ 300 ≤ env.prefillStatus) :
    runNIXLProtocolV2 env =
      ⟨some ⟨uuidString u, buildPrefillBody m⟩, none,
        .mirroredStatus env.prefillStatus⟩ := by
  obtain ⟨rb, pb, nu, ph, ps, pp⟩ := env
  simp only at hrb hm hu hh hst
  subst hrb hm hu hh
  simp [runNIXLProtocolV2, hst]

theorem runNIXLProtocolV2_prefill_bad_json (env : ProtocolEnv) (m : GoMap)
    (u : UUID) (e : String)
    (hrb : env.readBody = .ok ()) (hm : env.parsedBody = .ok m)
    (hu : env.newUUID = .ok u) (hh : env.prefillHandler = .ok ())
    (h2xx : 200 ≤ env.prefillStatus ∧ env.prefillStatus < 300)
    (hpp : env.prefillParsed = .error e) :
    runNIXLProtocolV2 env =
      ⟨some ⟨uuidString u, buildPrefillBody m⟩, none,
        .errorEnvelope 400 (errorJSONInvalid e)⟩ := by
  obtain ⟨rb, pb, nu, ph, ps, pp⟩ := env
  simp only at hrb hm hu hh hpp h2xx
  subst hrb hm hu hh hpp
  have hst : ¬(ps < 200 ∨ 300 ≤ ps) :=
    not_or.mpr ⟨not_lt.mpr h2xx.1, not_le.mpr h2xx.2⟩
  simp [runNIXLProtocolV2, hst]

/-! ### Well-formedness of generated UUID strings -/

theorem isHexChar_hexChar (n : Nat) (h : n < 16) : isHexChar (hexChar n) = true := by
  have hall : ∀ k : Fin 16, isHexChar (hexChar k.val) = true := by decide
  exact hall ⟨n, h⟩

theorem optionSomeBind {α β : Type} (a : α) (f : α → Option β) :
    (some a).bind f = f a := rfl

theorem hexRun_byteToHex (b : Nat) (n : Nat) (l : List Char) :
    hexRun (n + 2) (byteToHex b ++ l) = hexRun n l := by
  have h1 : isHexChar (hexChar (b % 256 / 16)) = true :=
    isHexChar_hexChar _ (Nat.div_lt_of_lt_mul (by omega))
  have h2 : isHexChar (hexChar (b % 16)) = true :=
    isHexChar_hexChar _ (Nat.mod_lt _ (by omega))
  simp [byteToHex, hexRun, h1, h2]

theorem hexRun_bytesToHex (bs : List Nat) (l : List Char) :
    hexRun (2 * bs.length) (bytesToHex bs ++ l) = some l := by
  induction bs with
  | nil => rfl
  | cons b rest ih =>
    have : 2 * (b :: rest).length = 2 * rest.length + 2 := by
      simp [List.length]; omega
    rw [this]
    show hexRun (2 * rest.length + 2) ((byteToHex b ++ bytesToHex rest) ++ l) = some l
    rw [List.append_assoc, hexRun_byteToHex, ih]

theorem isWellFormedUUIDString_uuidString (u : UUID) :
    isWellFormedUUIDString (uuidString u) = true := by
  have r8 : ∀ a b c d l, hexRun 8 (bytesToHex [a, b, c, d] ++ l) = some l := by
    intro a b c d l
    simpa using hexRun_bytesToHex [a, b, c, d] l
  have r4 : ∀ a b l, hexRun 4 (bytesToHex [a, b] ++ l) = some l := by
    intro a b l
    simpa using hexRun_bytesToHex [a, b] l
  have r12 : ∀ a b c d e f, hexRun 12 (bytesToHex [a, b, c, d, e, f]) = some [] := by
    intro a b c d e f
    have := hexRun_bytesToHex [a, b, c, d, e, f] []
    simpa using this
  have hdata : (uuidString u).data =
      bytesToHex [u.b0, u.b1, u.b2, u.b3] ++
        ('-' :: (bytesToHex [u.b4, u.b5] ++
        ('-' :: (bytesToHex [u.b6, u.b7] ++
        ('-' :: (bytesToHex [u.b8, u.b9] ++
        ('-' :: bytesToHex [u.b10, u.b11, u.b12, u.b13, u.b14, u.b15]))))))) := by
    show (bytesToHex [u.b0, u.b1, u.b2, u.b3] ++
        '-' :: bytesToHex [u.b4, u.b5] ++
        '-' :: bytesToHex [u.b6, u.b7] ++
        '-' :: bytesToHex [u.b8, u.b9] ++
        '-' :: bytesToHex [u.b10, u.b11, u.b12, u.b13, u.b14, u.b15]) = _
    simp [List.append_assoc]
  unfold isWellFormedUUIDString
  rw [hdata, r8, optionSomeBind]
  rw [show expectDash ('-' :: (bytesToHex [u.b4, u.b5] ++
      ('-' :: (bytesToHex [u.b6, u.b7] ++
      ('-' :: (bytesToHex [u.b8, u.b9] ++
      ('-' :: bytesToHex [u.b10, u.b11, u.b12, u.b13, u.b14, u.b15]))))))) = some _ from rfl]
  rw [optionSomeBind, r4, optionSomeBind]
  rw [show expectDash ('-' :: (bytesToHex [u.b6, u.b7] ++
      ('-' :: (bytesToHex [u.b8, u.b9] ++
      ('-' :: bytesToHex [u.b10, u.b11, u.b12, u.b13, u.b14, u.b15]))))) = some _ from rfl]
  rw [optionSomeBind, r4, optionSomeBind]
  rw [show expectDash ('-' :: (bytesToHex [u.b8, u.b9] ++
      ('-' :: bytesToHex [u.b10, u.b11, u.b12, u.b13, u.b14, u.b15]))) = some _ from rfl]
  rw [optionSomeBind, r4, optionSomeBind]
  rw [show expectDash ('-' :: bytesToHex [u.b10, u.b11, u.b12, u.b13, u.b14, u.b15]) =
      some _ from rfl]
  rw [optionSomeBind, r12]

/-! ### Concrete inputs for evaluating the runner -/

/-- Extract the integer payload of a JSON number lookup result. -/
def jsonNum? : Option JSON → Option Int
  | some (.num n) => some n
  | _ => none

/-- A client body like the regression test's: `max_tokens: 50`,
`max_completion_tokens: 100`. -/
def clientBodyWithMCT : GoMap :=
  [("model", .str "Qwen/Qwen2-0.5B"),
   ("max_tokens", .num 50),
   ("max_completion_tokens", .num 100)]

def zeroUUID : UUID := ⟨0, 0, 0, 0, 0, 0, 0, 0, 0, 0, 0, 0, 0, 0, 0, 0⟩

/-- A prefiller response that echoes back `kv_transfer_params`. -/
def prefillerEchoResponse : GoMap :=
  [("kv_transfer_params", .obj [("do_remote_prefill", .bool true)])]

/-- A successful orchestration of `clientBodyWithMCT`: every effectful step
succeeds and the prefill peer answers 200. -/
def envWithMCT : ProtocolEnv :=
  { readBody := .ok ()
    parsedBody := .ok clientBodyWithMCT
    newUUID := .ok zeroUUID
    prefillHandler := .ok ()
    prefillStatus := 200
    prefillParsed := .ok prefillerEchoResponse }

/-- The same orchestration but the prefill peer answers 500. -/
def envPrefill500 : ProtocolEnv :=
  { envWithMCT with prefillStatus := 500 }

/-- The same orchestration but the prefill peer answers 200 with a body that
does not parse as a JSON object. -/
def envPrefillBadJSON : ProtocolEnv :=
  { envWithMCT with prefillParsed := .error "invalid character p looking for beginning of value" }

/-! ### Claim theorems: the NIXL v2 protocol runner -/

/-- C1.  The claim states that the prefill request body always carries
`max_tokens == 1`, `max_completion_tokens == 1`, `stream == false` and no
`stream_options` key.  Evaluating `runNIXLProtocolV2` on a client body that
carries `max_completion_tokens: 100` shows that the emitted prefill body
keeps the client's `max_completion_tokens` value (100) instead of pinning it
to 1 (the runner never touches that key), while `max_tokens`, `stream` and
`stream_options` are rewritten as claimed.  This contradicts the repository's
own regression tests (connector_nixlv2_test.go, "should set
max_completion_tokens=1 in prefill ..."), so the code, not the claim, is at
fault. -/
theorem c1_prefill_body_keeps_client_maxCompletionTokens :
    ((runNIXLProtocolV2 envWithMCT).prefillRequest.map
        (fun p => jsonNum? (mapGet p.body requestFieldMaxCompletionTokens))) =
      some (some 100) ∧
    ((runNIXLProtocolV2 envWithMCT).prefillRequest.map
        (fun p => jsonNum? (mapGet p.body requestFieldMaxCompletionTokens))) ≠
      some (some 1) ∧
    ((runNIXLProtocolV2 envWithMCT).prefillRequest.map
        (fun p => jsonNum? (mapGet p.body requestFieldMaxTokens))) = some (some 1) ∧
    ((runNIXLProtocolV2 envWithMCT).prefillRequest.map
        (fun p => mapGet p.body requestFieldStream)) = some (some (.bool false)) ∧
    ((runNIXLProtocolV2 envWithMCT).prefillRequest.map
        (fun p => mapGet p.body requestFieldStreamOptions)) = some none := by
  refine ⟨rfl, ?_, rfl, rfl, rfl⟩
  intro h
  rw [show ((runNIXLProtocolV2 envWithMCT).prefillRequest.map
      (fun p => jsonNum? (mapGet p.body requestFieldMaxCompletionTokens))) =
      some (some 100) from rfl] at h
  simp at h

/-- C2.  For every emitted decode request, the fields `max_tokens`, `stream`
and `stream_options` are present exactly when present in the client's parsed
body and carry the client's values, and `max_completion_tokens` is present
exactly when the client had it. -/
theorem c2_decode_body_restores_client_fields (env : ProtocolEnv) (m : GoMap)
    (d : SubRequest)
    (hm : env.parsedBody = .ok m)
    (hd : (runNIXLProtocolV2 env).decodeRequest = some d) :
    mapGet d.body requestFieldMaxTokens = mapGet m requestFieldMaxTokens ∧
    mapGet d.body requestFieldStream = mapGet m requestFieldStream ∧
    mapGet d.body requestFieldStreamOptions = mapGet m requestFieldStreamOptions ∧
    (mapGet d.body requestFieldMaxCompletionTokens).isSome =
      (mapGet m requestFieldMaxCompletionTokens).isSome := by
  obtain ⟨m', u, pr, hm', hu, hpr, h1, h2, hd'⟩ :=
    runNIXLProtocolV2_decode_some env d hd
  rw [hm] at hm'
  injection hm' with hmm
  subst hmm
  subst hd'
  exact ⟨buildDecodeBody_maxTokens _ _, buildDecodeBody_stream _ _,
    buildDecodeBody_streamOptions _ _,
    by rw [buildDecodeBody_maxCompletionTokens]⟩

/-- C2 witness: the decode request of the concrete happy-path orchestration
restores the client's fields. -/
theorem c2_decode_body_restores_client_fields_witness :
    mapGet ((runNIXLProtocolV2 envWithMCT).decodeRequest.getD ⟨"", []⟩).body
        requestFieldMaxTokens = mapGet clientBodyWithMCT requestFieldMaxTokens ∧
    mapGet ((runNIXLProtocolV2 envWithMCT).decodeRequest.getD ⟨"", []⟩).body
        requestFieldStream = mapGet clientBodyWithMCT requestFieldStream ∧
    mapGet ((runNIXLProtocolV2 envWithMCT).decodeRequest.getD ⟨"", []⟩).body
        requestFieldStreamOptions =
      mapGet clientBodyWithMCT requestFieldStreamOptions ∧
    (mapGet ((runNIXLProtocolV2 envWithMCT).decodeRequest.getD ⟨"", []⟩).body
        requestFieldMaxCompletionTokens).isSome =
      (mapGet clientBodyWithMCT requestFieldMaxCompletionTokens).isSome :=
  c2_decode_body_restores_client_fields envWithMCT clientBodyWithMCT
    ((runNIXLProtocolV2 envWithMCT).decodeRequest.getD ⟨"", []⟩) rfl rfl

/-- C3.  When the buffered capture sink records a non-2xx status for the
prefill round-trip, the runner mirrors exactly that status to the client and
never emits a decode sub-request. -/
theorem c3_non2xx_prefill_mirrors_status_no_decode (env : ProtocolEnv)
    (p : SubRequest)
    (hp : (runNIXLProtocolV2 env).prefillRequest = some p)
    (hst : env.prefillStatus < 200 ∨ 300 ≤ env.prefillStatus) :
    (runNIXLProtocolV2 env).response = .mirroredStatus env.prefillStatus ∧
    (runNIXLProtocolV2 env).decodeRequest = none := by
  obtain ⟨m, u, hrb, hm, hu, hh, _⟩ := runNIXLProtocolV2_prefill_some env p hp
  rw [runNIXLProtocolV2_non2xx env m u hrb hm hu hh hst]
  exact ⟨rfl, rfl⟩

/-- C3 witness: with a 500 from the prefill peer, the client sees 500 and no
decode request is issued. -/
theorem c3_non2xx_prefill_mirrors_status_no_decode_witness :
    (runNIXLProtocolV2 envPrefill500).response = .mirroredStatus 500 ∧
    (runNIXLProtocolV2 envPrefill500).decodeRequest = none :=
  c3_non2xx_prefill_mirrors_status_no_decode envPrefill500
    ((runNIXLProtocolV2 envPrefill500).prefillRequest.getD ⟨"", []⟩) rfl
    (Or.inr (by decide))

/-- C4 counterexample.  The claim states that when the client supplied
`max_completion_tokens`, the decode body carries `max_completion_tokens == 1`.
On the concrete happy-path orchestration of a client body with
`max_completion_tokens: 100`, the emitted decode body carries 100, not 1. -/
theorem c4_counterexample_decode_keeps_client_value :
    ((runNIXLProtocolV2 envWithMCT).decodeRequest.map
        (fun d => jsonNum? (mapGet d.body requestFieldMaxCompletionTokens))) =
      some (some 100) ∧
    ((runNIXLProtocolV2 envWithMCT).decodeRequest.map
        (fun d => jsonNum? (mapGet d.body requestFieldMaxCompletionTokens))) ≠
      some (some 1) := by
  refine ⟨rfl, ?_⟩
  intro h
  rw [show ((runNIXLProtocolV2 envWithMCT).decodeRequest.map
      (fun d => jsonNum? (mapGet d.body requestFieldMaxCompletionTokens))) =
      some (some 100) from rfl] at h
  simp at h

/-- C4 amended.  In the decode body built by the NIXL v2 runner,
`max_completion_tokens` carries the client's original value when the client
had the key (the runner never rewrites it) and is absent when the client
omitted it. -/
theorem c4_decode_maxCompletionTokens_is_client_value (env : ProtocolEnv)
    (m : GoMap) (d : SubRequest)
    (hm : env.parsedBody = .ok m)
    (hd : (runNIXLProtocolV2 env).decodeRequest = some d) :
    mapGet d.body requestFieldMaxCompletionTokens =
      mapGet m requestFieldMaxCompletionTokens := by
  obtain ⟨m', u, pr, hm', hu, hpr, h1, h2, hd'⟩ :=
    runNIXLProtocolV2_decode_some env d hd
  rw [hm] at hm'
  injection hm' with hmm
  subst hmm
  subst hd'
  exact buildDecodeBody_maxCompletionTokens _ _

/-- C4 amended witness. -/
theorem c4_decode_maxCompletionTokens_is_client_value_witness :
    mapGet ((runNIXLProtocolV2 envWithMCT).decodeRequest.getD ⟨"", []⟩).body
        requestFieldMaxCompletionTokens =
      mapGet clientBodyWithMCT requestFieldMaxCompletionTokens :=
  c4_decode_maxCompletionTokens_is_client_value envWithMCT clientBodyWithMCT
    ((runNIXLProtocolV2 envWithMCT).decodeRequest.getD ⟨"", []⟩) rfl rfl

/-- C9.  The `x-request-id` value attached to the prefill sub-request equals
the one attached to the decode sub-request, and it is the string form of the
UUID produced by `uuid.NewUUID()` for this request, which is well-formed. -/
theorem c9_request_id_shared_and_well_formed (env : ProtocolEnv) (u : UUID)
    (p d : SubRequest)
    (hu : env.newUUID = .ok u)
    (hp : (runNIXLProtocolV2 env).prefillRequest = some p)
    (hd : (runNIXLProtocolV2 env).decodeRequest = some d) :
    p.requestID = d.requestID ∧ p.requestID = uuidString u ∧
    isWellFormedUUIDString p.requestID = true := by
  obtain ⟨m1, u1, hrb, hm1, hu1, hh, hp'⟩ :=
    runNIXLProtocolV2_prefill_some env p hp
  obtain ⟨m2, u2, pr, hm2, hu2, hpr, h1, h2, hd'⟩ :=
    runNIXLProtocolV2_decode_some env d hd
  rw [hu] at hu1 hu2
  injection hu1 with e1
  injection hu2 with e2
  subst e1
  subst e2
  subst hp'
  subst hd'
  exact ⟨rfl, rfl, isWellFormedUUIDString_uuidString u⟩

/-- C9 witness: on the concrete happy-path orchestration both sub-requests
carry the same, well-formed UUID string. -/
theorem c9_request_id_shared_and_well_formed_witness :
    ((runNIXLProtocolV2 envWithMCT).prefillRequest.getD ⟨"", []⟩).requestID =
      ((runNIXLProtocolV2 envWithMCT).decodeRequest.getD ⟨"", []⟩).requestID ∧
    ((runNIXLProtocolV2 envWithMCT).prefillRequest.getD ⟨"", []⟩).requestID =
      uuidString zeroUUID ∧
    isWellFormedUUIDString
      ((runNIXLProtocolV2 envWithMCT).prefillRequest.getD ⟨"", []⟩).requestID = true :=
  c9_request_id_shared_and_well_formed envWithMCT zeroUUID
    ((runNIXLProtocolV2 envWithMCT).prefillRequest.getD ⟨"", []⟩)
    ((runNIXLProtocolV2 envWithMCT).decodeRequest.getD ⟨"", []⟩) rfl rfl rfl

/-- C10.  When the prefill peer returns a 2xx status but a body that does not
parse as a JSON object, the client receives HTTP 400 with the
`BadRequestError` envelope built by `errorJSONInvalid` — the same envelope
constructor used for a malformed client body — and no decode sub-request is
issued. -/
theorem c10_bad_prefill_json_yields_400_no_decode (env : ProtocolEnv)
    (p : SubRequest) (e : String)
    (hp : (runNIXLProtocolV2 env).prefillRequest = some p)
    (h2xx : 200 ≤ env.prefillStatus ∧ env.prefillStatus < 300)
    (hbad : env.prefillParsed = .error e) :
    (runNIXLProtocolV2 env).response = .errorEnvelope 400 (errorJSONInvalid e) ∧
    (errorJSONInvalid e).type' = "BadRequestError" ∧
    (errorJSONInvalid e).code = 400 ∧
    (runNIXLProtocolV2 env).decodeRequest = none := by
  obtain ⟨m, u, hrb, hm, hu, hh, _⟩ := runNIXLProtocolV2_prefill_some env p hp
  rw [runNIXLProtocolV2_prefill_bad_json env m u e hrb hm hu hh h2xx hbad]
  exact ⟨rfl, rfl, rfl, rfl⟩

/-- C10 witness. -/
theorem c10_bad_prefill_json_yields_400_no_decode_witness :
    (runNIXLProtocolV2 envPrefillBadJSON).response =
      .errorEnvelope 400
        (errorJSONInvalid "invalid character p looking for beginning of value") ∧
    (errorJSONInvalid "invalid character p looking for beginning of value").type' =
      "BadRequestError" ∧
    (errorJSONInvalid "invalid character p looking for beginning of value").code = 400 ∧
    (runNIXLProtocolV2 envPrefillBadJSON).decodeRequest = none :=
  c10_bad_prefill_json_yields_400_no_decode envPrefillBadJSON
    ((runNIXLProtocolV2 envPrefillBadJSON).prefillRequest.getD ⟨"", []⟩)
    "invalid character p looking for beginning of value" rfl
    ⟨by decide, by decide⟩ rfl

/-! ### net.SplitHostPort (Go standard library) and the allowlist validator -/

/-- Membership of a character, as `bytealg.IndexByteString(s, c) >= 0`. -/
def containsChar : List Char → Char → Bool
  | [], _ => false
  | a :: as, c => a = c || containsChar as c

/-- Index of the last occurrence of a character
(`bytealg.LastIndexByteString`), `none` when absent. -/
def lastIndexOfChar : List Char → Char → Option Nat
  | [], _ => none
  | a :: as, c =>
    match lastIndexOfChar as c with
    | some i => some (i + 1)
    | none => if a = c then some 0 else none

/-- Index of the first occurrence of a character
(`bytealg.IndexByteString`), `none` when absent. -/
def indexOfChar : List Char → Char → Option Nat
  | [], _ => none
  | a :: as, c => if a = c then some 0 else (indexOfChar as c).map (· + 1)

/-- Go's `net.SplitHostPort`: the port starts after the last colon; a host
beginning with `[` is an IPv6 literal whose closing `]` must sit just before
that colon; otherwise the host (everything before the last colon) must not
itself contain a colon; stray brackets are rejected.  All error returns
collapse to `none`. -/
def goSplitHostPort (hp : List Char) : Option (List Char × List Char) :=
  match lastIndexOfChar hp ':' with
  | none => none
  | some i =>
    let hostJK : Option (List Char × Nat × Nat) :=
      if hp.head? = some '[' then
        match indexOfChar hp ']' with
        | none => none
        | some e =>
          if e + 1 = hp.length then none
          else if e + 1 = i then some ((hp.drop 1).take (e - 1), 1, e + 1)
          else none
      else
        let host := hp.take i
        if containsChar host ':' then none else some (host, 0, 0)
    match hostJK with
    | none => none
    | some (host, j, k) =>
      if containsChar (hp.drop j) '[' then none
      else if containsChar (hp.drop k) ']' then none
      else some (host, hp.drop (i + 1))

/-- Model of `normalizeHostPort`: take the host part of `host:port`; when
`net.SplitHostPort` fails, treat the whole input as a hostname. -/
def normalizeHostPort (hostPort : String) : String :=
  match goSplitHostPort hostPort.data with
  | some (host, _) => ⟨host⟩
  | none => hostPort

/-- The membership test of `k8s.io/utils/set` (`Set.Has`). -/
def setHas (s : List String) (x : String) : Bool := decide (x ∈ s)

/-- The state of the `AllowlistValidator` relevant to `IsAllowed`. -/
structure AllowlistValidator where
  enabled : Bool
  allowedTargets : List String

/-- Model of `(*AllowlistValidator).IsAllowed`: constant true when SSRF protection is
disabled; otherwise membership of the normalized host in the allowed set. -/
def IsAllowed (av : AllowlistValidator) (hostPort : String) : Bool :=
  if !av.enabled then true
  else setHas av.allowedTargets (normalizeHostPort hostPort)

theorem containsChar_append (xs ys : List Char) (c : Char) :
    containsChar (xs ++ ys) c = (containsChar xs c || containsChar ys c) := by
  induction xs with
  | nil => rfl
  | cons a as ih => simp [containsChar, ih, Bool.or_assoc]

theorem lastIndexOfChar_of_not_contains (l : List Char) (c : Char)
    (h : containsChar l c = false) : lastIndexOfChar l c = none := by
  induction l with
  | nil => rfl
  | cons a as ih =>
    simp only [containsChar, Bool.or_eq_false_iff] at h
    rw [lastIndexOfChar, ih h.2]
    simp only [decide_eq_false_iff_not] at h
    rw [if_neg h.1]

theorem lastIndexOfChar_append_cons (h p : List Char) (c : Char)
    (hp : containsChar p c = false) :
    lastIndexOfChar (h ++ c :: p) c = some h.length := by
  induction h with
  | nil =>
    rw [List.nil_append, lastIndexOfChar, lastIndexOfChar_of_not_contains p c hp]
    simp
  | cons a as ih =>
    rw [List.cons_append, lastIndexOfChar, ih]
    rfl

theorem take_len_append (h rest : List Char) : (h ++ rest).take h.length = h := by
  induction h with
  | nil => rfl
  | cons a as ih => simp [List.take, ih]

theorem drop_len_cons_append (h : List Char) (c : Char) (p : List Char) :
    (h ++ c :: p).drop (h.length + 1) = p := by
  induction h with
  | nil => rfl
  | cons a as ih => simp [List.drop, ih]

theorem goSplitHostPort_append_colon (h p : List Char)
    (hc : containsChar h ':' = false) (hlb : containsChar h '[' = false)
    (hrb : containsChar h ']' = false)
    (pc : containsChar p ':' = false) (plb : containsChar p '[' = false)
    (prb : containsChar p ']' = false) :
    goSplitHostPort (h ++ ':' :: p) = some (h, p) := by
  have hhead : ¬(h ++ ':' :: p).head? = some '[' := by
    cases h with
    | nil => simp
    | cons a as =>
      simp only [containsChar, Bool.or_eq_false_iff, decide_eq_false_iff_not] at hlb
      simp [hlb.1]
  have hwhole_lb : containsChar (h ++ ':' :: p) '[' = false := by
    rw [containsChar_append, hlb]
    simp [containsChar, plb]
  have hwhole_rb : containsChar (h ++ ':' :: p) ']' = false := by
    rw [containsChar_append, hrb]
    simp [containsChar, prb]
  unfold goSplitHostPort
  rw [lastIndexOfChar_append_cons h p ':' pc]
  simp only [if_neg hhead, take_len_append, hc, Bool.false_eq_true, if_false,
    List.drop_zero, hwhole_lb, hwhole_rb, drop_len_cons_append]

/-- C6 counterexample.  The claim concludes that
`IsAllowed(h + ":" + p) = (h ∈ allowed)` for any port `p`.  For the IPv6
host `::1` (which the validator's own tests treat as a legitimate allowlist
entry) this fails: `net.SplitHostPort("::1:8000")` errors on the extra
colons, so the whole string `::1:8000` is looked up and membership of `::1`
is never consulted. -/
theorem c6_counterexample_ipv6_host :
    IsAllowed ⟨true, ["::1"]⟩ ("::1" ++ ":" ++ "8000") = false ∧
    setHas ["::1"] "::1" = true := by
  constructor
  · rfl
  · rfl

/-- C6 amended.  When SSRF protection is disabled `IsAllowed` is constant
true; when enabled it returns membership of the normalized host (the host
part of a successful `net.SplitHostPort`, the whole string otherwise); and
the equation `IsAllowed(h + ":" + p) = (h ∈ allowed)` holds for every host
`h` and port `p` that contain no `:`, `[` or `]` characters (hence for every
IPv4 or DNS host with a numeric port, but not for bare IPv6 hosts). -/
theorem c6_isAllowed_characterization (av : AllowlistValidator) (x h p : String)
    (hc : containsChar h.data ':' = false) (hlb : containsChar h.data '[' = false)
    (hrb : containsChar h.data ']' = false)
    (pc : containsChar p.data ':' = false) (plb : containsChar p.data '[' = false)
    (prb : containsChar p.data ']' = false) :
    (av.enabled = false → IsAllowed av x = true) ∧
    (av.enabled = true →
      IsAllowed av x = setHas av.allowedTargets (normalizeHostPort x)) ∧
    (av.enabled = true →
      IsAllowed av (h ++ ":" ++ p) = setHas av.allowedTargets h) := by
  refine ⟨fun hdis => by simp [IsAllowed, hdis], fun hen => by simp [IsAllowed, hen], ?_⟩
  intro hen
  have hdata : (h ++ ":" ++ p).data = h.data ++ ':' :: p.data := by
    simp [String.data_append]
  have hnorm : normalizeHostPort (h ++ ":" ++ p) = h := by
    unfold normalizeHostPort
    rw [hdata, goSplitHostPort_append_colon h.data p.data hc hlb hrb pc plb prb]
  simp [IsAllowed, hen, hnorm]

/-- C6 witness: a plain IPv4 host and numeric port. -/
theorem c6_isAllowed_characterization_witness :
    ((⟨true, ["10.0.0.5"]⟩ : AllowlistValidator).enabled = false →
      IsAllowed ⟨true, ["10.0.0.5"]⟩ "10.0.0.5:8000" = true) ∧
    ((⟨true, ["10.0.0.5"]⟩ : AllowlistValidator).enabled = true →
      IsAllowed ⟨true, ["10.0.0.5"]⟩ "10.0.0.5:8000" =
        setHas ["10.0.0.5"] (normalizeHostPort "10.0.0.5:8000")) ∧
    ((⟨true, ["10.0.0.5"]⟩ : AllowlistValidator).enabled = true →
      IsAllowed ⟨true, ["10.0.0.5"]⟩ ("10.0.0.5" ++ ":" ++ "8000") =
        setHas ["10.0.0.5"] "10.0.0.5") :=
  c6_isAllowed_characterization ⟨true, ["10.0.0.5"]⟩ "10.0.0.5:8000"
    "10.0.0.5" "8000" (by decide) (by decide) (by decide) (by decide)
    (by decide) (by decide)

/-! ### Allowlist rebuild (`rebuildAllowlist` / `addPodToAllowlist`) -/

/-- The per-pod data the allowlist rebuild reads: `pod.GetName()` and
`status.podIP` (empty string when the pod has no IP yet). -/
structure PodInfo where
  name : String
  podIP : String

/-- Insertion into a `set.Set[string]`. -/
def setInsert (s : List String) (x : String) : List String :=
  if x ∈ s then s else x :: s

/-- Model of `(*AllowlistValidator).addPodToAllowlist`: insert the pod IP when
non-empty, then the pod's name when non-empty. -/
def addPodToAllowlist (targets : List String) (pod : PodInfo) : List String :=
  let t1 := if pod.podIP ≠ "" then setInsert targets pod.podIP else targets
  if pod.name ≠ "" then setInsert t1 pod.name else t1

/-- Model of `(*AllowlistValidator).rebuildAllowlist`: clear the set, then walk every
pod observed by the pod informers and add it — but only pods whose
`status.podIP` is non-empty ("Only include pods with valid IPs"). -/
def rebuildAllowlist (pods : List PodInfo) : List String :=
  pods.foldl
    (fun acc pod => if pod.podIP ≠ "" then addPodToAllowlist acc pod else acc) []

theorem mem_setInsert (s : List String) (x y : String) :
    y ∈ setInsert s x ↔ y = x ∨ y ∈ s := by
  unfold setInsert
  by_cases h : x ∈ s
  · rw [if_pos h]
    constructor
    · exact Or.inr
    · rintro (rfl | hy)
      · exact h
      · exact hy
  · rw [if_neg h]
    simp

theorem mem_addPodToAllowlist (t : List String) (pod : PodInfo) (x : String) :
    x ∈ addPodToAllowlist t pod ↔
      x ∈ t ∨ (pod.podIP ≠ "" ∧ x = pod.podIP) ∨
        (pod.name ≠ "" ∧ x = pod.name) := by
  unfold addPodToAllowlist
  by_cases hip : pod.podIP ≠ "" <;> by_cases hn : pod.name ≠ "" <;>
    simp [hip, hn, mem_setInsert] <;> tauto

theorem mem_rebuildAllowlist_foldl (pods : List PodInfo) (acc : List String)
    (x : String) :
    x ∈ pods.foldl
        (fun acc pod => if pod.podIP ≠ "" then addPodToAllowlist acc pod else acc)
        acc ↔
      x ∈ acc ∨ ∃ pod ∈ pods, pod.podIP ≠ "" ∧
        (x = pod.podIP ∨ (pod.name ≠ "" ∧ x = pod.name)) := by
  induction pods generalizing acc with
  | nil => simp
  | cons pod rest ih =>
    rw [List.foldl_cons, ih]
    by_cases hip : pod.podIP ≠ ""
    · rw [if_pos hip, mem_addPodToAllowlist]
      simp only [List.mem_cons]
      constructor
      · rintro ((hx | ⟨_, hx⟩ | ⟨hn, hx⟩) | ⟨q, hq, hqip, hqx⟩)
        · exact Or.inl hx
        · exact Or.inr ⟨pod, Or.inl rfl, hip, Or.inl hx⟩
        · exact Or.inr ⟨pod, Or.inl rfl, hip, Or.inr ⟨hn, hx⟩⟩
        · exact Or.inr ⟨q, Or.inr hq, hqip, hqx⟩
      · rintro (hx | ⟨q, rfl | hq, hqip, hqx⟩)
        · exact Or.inl (Or.inl hx)
        · rcases hqx with hx | hx
          · exact Or.inl (Or.inr (Or.inl ⟨hqip, hx⟩))
          · exact Or.inl (Or.inr (Or.inr hx))
        · exact Or.inr ⟨q, hq, hqip, hqx⟩
    · rw [if_neg hip]
      simp only [List.mem_cons]
      constructor
      · rintro (hx | ⟨q, hq, hqip, hqx⟩)
        · exact Or.inl hx
        · exact Or.inr ⟨q, Or.inr hq, hqip, hqx⟩
      · rintro (hx | ⟨q, rfl | hq, hqip, hqx⟩)
        · exact Or.inl hx
        · exact absurd hqip hip
        · exact Or.inr ⟨q, hq, hqip, hqx⟩

/-- C7 counterexample.  The claim states that a watched pod's name is in the
allowed set even when that pod has no IP address.  A single observed pod
named `pod-a` with empty `status.podIP` produces an empty allowlist: the
rebuild skips pods without an IP entirely, so the pod's name is absent. -/
theorem c7_counterexample_podname_without_ip :
    rebuildAllowlist [⟨"pod-a", ""⟩] = [] ∧
    setHas (rebuildAllowlist [⟨"pod-a", ""⟩]) "pod-a" = false := by
  exact ⟨rfl, rfl⟩

/-- C7 amended.  After a rebuild the allowed set contains exactly: for each
observed pod whose IP is non-empty, that pod's IP, and that pod's (non-empty)
name.  Pods without an IP contribute nothing — neither IP nor name. -/
theorem c7_rebuildAllowlist_characterization (pods : List PodInfo) (x : String) :
    x ∈ rebuildAllowlist pods ↔
      ∃ pod ∈ pods, pod.podIP ≠ "" ∧
        (x = pod.podIP ∨ (pod.name ≠ "" ∧ x = pod.name)) := by
  unfold rebuildAllowlist
  rw [mem_rebuildAllowlist_foldl]
  simp

/-! ### Peer-proxy cache (`prefillerProxyHandler`, pkg/sidecar/proxy/proxy.go) -/

theorem take_all_of_len_append (h rest : List Char) :
    (h ++ rest).take h.length = h := take_len_append h rest

theorem drop_len_append (h rest : List Char) : (h ++ rest).drop h.length = rest := by
  induction h with
  | nil => rfl
  | cons a as ih => simp [List.drop, ih]

/-- Whether `strings.CutPrefix(hostPort, "http://")` succeeded. -/
def startsWithHTTPScheme (s : String) : Bool :=
  decide (s.data.take 7 = "http://".data)

/-- The normalization performed on a cache miss: trim a leading `http://`. -/
def trimHTTPScheme (s : String) : String :=
  if startsWithHTTPScheme s then ⟨s.data.drop 7⟩ else s

/-- The hashicorp LRU cache of prefiller proxy handlers, keyed by string,
most-recently-used first.  Handler instances are identified by creation
order (`Nat` ids). -/
structure LRUCache where
  entries : List (String × Nat)

/-- Capacity passed to `lru.New[string, http.Handler](16)`. -/
def prefillerProxiesCapacity : Nat := 16

/-- Model of `cache.Get`: on a hit the entry moves to the front (most recent). -/
def lruGet (c : LRUCache) (k : String) : Option Nat × LRUCache :=
  match c.entries.find? (fun p => p.1 == k) with
  | some pv => (some pv.2, ⟨(k, pv.2) :: c.entries.filter (fun p => !(p.1 == k))⟩)
  | none => (none, c)

/-- Model of `cache.Add`: insert at the front, evicting beyond capacity. -/
def lruAdd (c : LRUCache) (k : String) (v : Nat) : LRUCache :=
  ⟨((k, v) :: c.entries.filter (fun p => !(p.1 == k))).take prefillerProxiesCapacity⟩

/-- The server state touched by `prefillerProxyHandler`: the handler cache
and a counter identifying the next freshly-constructed reverse proxy. -/
structure PrefillerCacheState where
  prefillerProxies : LRUCache
  nextHandlerID : Nat

/-- Model of `(*Server).prefillerProxyHandler`: look up the *raw* input in the LRU;
on a miss, trim a leading `http://`, parse the URL (`urlParseOk`, applied to
the trimmed host:port), construct a fresh handler and store it under the
*trimmed* key. -/
def prefillerProxyHandler (urlParseOk : String → Bool)
    (st : PrefillerCacheState) (hostPort : String) :
    Except Unit Nat × PrefillerCacheState :=
  match lruGet st.prefillerProxies hostPort with
  | (some h, cache') => (.ok h, { st with prefillerProxies := cache' })
  | (none, _) =>
    let hostPort' := trimHTTPScheme hostPort
    if urlParseOk hostPort' then
      (.ok st.nextHandlerID,
        { prefillerProxies := lruAdd st.prefillerProxies hostPort' st.nextHandlerID,
          nextHandlerID := st.nextHandlerID + 1 })
    else
      (.error (), st)

/-- The empty cache a fresh proxy server starts with. -/
def freshCacheState : PrefillerCacheState := ⟨⟨[]⟩, 0⟩

theorem trimHTTPScheme_append (x : String) :
    trimHTTPScheme ("http://" ++ x) = x := by
  have hdata : ("http://" ++ x).data = "http://".data ++ x.data :=
    String.data_append _ _
  have hstart : startsWithHTTPScheme ("http://" ++ x) = true := by
    unfold startsWithHTTPScheme
    rw [hdata]
    exact decide_eq_true (take_all_of_len_append "http://".data x.data)
  unfold trimHTTPScheme
  rw [hstart]
  simp only [if_true]
  rw [hdata]
  rw [show ("http://".data ++ x.data).drop 7 = x.data from
    drop_len_append "http://".data x.data]

theorem trimHTTPScheme_of_not_scheme (x : String)
    (h : startsWithHTTPScheme x = false) : trimHTTPScheme x = x := by
  unfold trimHTTPScheme
  rw [h]
  rfl

theorem prefillerProxyHandler_miss (ok : String → Bool)
    (st : PrefillerCacheState) (hostPort : String)
    (hfind : st.prefillerProxies.entries.find? (fun p => p.1 == hostPort) = none)
    (hok : ok (trimHTTPScheme hostPort) = true) :
    prefillerProxyHandler ok st hostPort =
      (.ok st.nextHandlerID,
        ⟨lruAdd st.prefillerProxies (trimHTTPScheme hostPort) st.nextHandlerID,
          st.nextHandlerID + 1⟩) := by
  unfold prefillerProxyHandler lruGet
  rw [hfind]
  simp [hok]

theorem prefillerProxyHandler_hit (ok : String → Bool)
    (st : PrefillerCacheState) (hostPort : String) (pv : String × Nat)
    (hfind : st.prefillerProxies.entries.find? (fun p => p.1 == hostPort) = some pv) :
    prefillerProxyHandler ok st hostPort =
      (.ok pv.2,
        ⟨⟨(hostPort, pv.2) ::
            st.prefillerProxies.entries.filter (fun p => !(p.1 == hostPort))⟩,
          st.nextHandlerID⟩) := by
  unfold prefillerProxyHandler lruGet
  rw [hfind]

theorem prefillerProxyHandler_fst_head (ok : String → Bool) (k : String) (v : Nat)
    (rest : List (String × Nat)) (n : Nat) :
    (prefillerProxyHandler ok ⟨⟨(k, v) :: rest⟩, n⟩ k).1 = .ok v := by
  unfold prefillerProxyHandler lruGet
  simp [List.find?]

theorem lruAdd_entries (c : LRUCache) (k : String) (v : Nat) :
    lruAdd c k v =
      ⟨(k, v) :: (c.entries.filter (fun p => !(p.1 == k))).take 15⟩ := by
  unfold lruAdd prefillerProxiesCapacity
  rw [List.take_succ_cons]

/-- C5 counterexample.  The claim states that two `get` calls with inputs
normalizing to the same key return the same handler instance, in particular
`get("http://h:p")` twice.  But the cache lookup uses the *raw* input while
insertion uses the *trimmed* key, so a `http://`-prefixed input misses the
cache on every call: two identical prefixed calls construct two distinct
handler instances (ids 0 and 1). -/
theorem c5_counterexample_prefixed_input_twice :
    (prefillerProxyHandler (fun _ => true) freshCacheState "http://pod1:8000").1 =
      .ok 0 ∧
    (prefillerProxyHandler (fun _ => true)
        (prefillerProxyHandler (fun _ => true) freshCacheState
          "http://pod1:8000").2
        "http://pod1:8000").1 = .ok 1 ∧
    (Except.ok 0 : Except Unit Nat) ≠ .ok 1 := by
  refine ⟨rfl, rfl, ?_⟩
  intro h
  injection h with h'
  exact absurd h' (by decide)

/-- C5 amended.  The cache lookup uses the raw input while insertion uses
the key with a leading `http://` trimmed.  Hence (a) two successive calls
with the same already-normalized input (no leading `http://`) return the
same handler instance, and (b) `get("http://h:p")` (when that raw string is
not itself a cache key) followed by `get("h:p")` returns the handler the
first call created; but a `http://`-prefixed input never hits the cache, so
repeating it builds a fresh handler each time. -/
theorem c5_cache_same_handler_amended (ok : String → Bool)
    (st : PrefillerCacheState) (x : String)
    (hx : startsWithHTTPScheme x = false) (hok : ok x = true)
    (hmiss : st.prefillerProxies.entries.find?
      (fun p => p.1 == "http://" ++ x) = none) :
    (prefillerProxyHandler ok (prefillerProxyHandler ok st x).2 x).1 =
      (prefillerProxyHandler ok st x).1 ∧
    (prefillerProxyHandler ok
        (prefillerProxyHandler ok st ("http://" ++ x)).2 x).1 =
      (prefillerProxyHandler ok st ("http://" ++ x)).1 := by
  have htrim : trimHTTPScheme x = x := trimHTTPScheme_of_not_scheme x hx
  constructor
  · rcases hfind : st.prefillerProxies.entries.find? (fun p => p.1 == x) with _ | pv
    · rw [prefillerProxyHandler_miss ok st x hfind (by rw [htrim]; exact hok)]
      rw [htrim, lruAdd_entries]
      exact prefillerProxyHandler_fst_head ok x st.nextHandlerID _ _
    · rw [prefillerProxyHandler_hit ok st x pv hfind]
      exact prefillerProxyHandler_fst_head ok x pv.2 _ _
  · rw [prefillerProxyHandler_miss ok st ("http://" ++ x) hmiss
      (by rw [trimHTTPScheme_append]; exact hok)]
    rw [trimHTTPScheme_append, lruAdd_entries]
    exact prefillerProxyHandler_fst_head ok x st.nextHandlerID _ _

/-- C5 amended witness. -/
theorem c5_cache_same_handler_amended_witness :
    (prefillerProxyHandler (fun _ => true)
        (prefillerProxyHandler (fun _ => true) freshCacheState "pod1:8000").2
        "pod1:8000").1 =
      (prefillerProxyHandler (fun _ => true) freshCacheState "pod1:8000").1 ∧
    (prefillerProxyHandler (fun _ => true)
        (prefillerProxyHandler (fun _ => true) freshCacheState
          ("http://" ++ "pod1:8000")).2
        "pod1:8000").1 =
      (prefillerProxyHandler (fun _ => true) freshCacheState
        ("http://" ++ "pod1:8000")).1 :=
  c5_cache_same_handler_amended (fun _ => true) freshCacheState "pod1:8000"
    (by decide) rfl rfl

/-! ### Chat-completion dispatcher (pkg/sidecar/proxy/chat_completions.go) -/

def ChatCompletionsPath : String := "/v1/chat/completions"

def CompletionsPath : String := "/v1/completions"

/-- Header name `common.PrefillPodHeader`. -/
def PrefillPodHeader : String := "x-prefiller-host-port"

/-- Header name `requestHeaderPrefillURL` (legacy). -/
def requestHeaderPrefillURL : String := "x-prefiller-url"

/-- The advisory header values readable on an inbound request
(`r.Header.Get` returns `""` when a header is absent). -/
structure InboundHeaders where
  prefillHostPort : String
  prefillURLLegacy : String

/-- The client-visible outcome of the dispatcher. -/
inductive DispatchOutcome where
  | passthroughToDecoder
  | forbidden (status : Nat) (body : String)
  | runProtocol (target : String)

/-- The handler `createRoutes` selects for a method/path pair:
`GET /health`, the chat-completion dispatcher on `POST` to the two
completion paths, and the decoder pass-through for everything else. -/
inductive RoutedHandler where
  | health
  | chatCompletions
  | decoderPassthrough

/-- The routing table of `(*Server).createRoutes`. -/
def routeRequest (method path : String) : RoutedHandler :=
  if method = "GET" ∧ path = "/health" then .health
  else if method = "POST" ∧ (path = ChatCompletionsPath ∨ path = CompletionsPath)
    then .chatCompletions
  else .decoderPassthrough

/-- Model of `(*Server).chatCompletionsHandler`: read the prefill-target header (with
legacy fallback); with no target, pass through to the decoder; when the SSRF
check refuses the target, reply `http.Error(w, "Forbidden: prefill target
not allowed by SSRF protection", 403)` (which appends a newline) and return
without invoking the protocol runner; otherwise run the connector protocol. -/
def chatCompletionsHandler (av : AllowlistValidator) (hdr : InboundHeaders) :
    DispatchOutcome :=
  let t0 := hdr.prefillHostPort
  let t1 := if t0 = "" then hdr.prefillURLLegacy else t0
  if t1 = "" then .passthroughToDecoder
  else if !(IsAllowed av t1) then
    .forbidden 403 ("Forbidden: prefill target not allowed by SSRF protection" ++ "\n")
  else .runProtocol t1

/-- C8.  With SSRF protection enabled, a POST to either completions path
whose prefill-target header names a host outside the allowed set is answered
403 with a body containing "prefill target not allowed by SSRF protection",
and the protocol runner is never invoked (zero requests reach the prefill
peer). -/
theorem c8_ssrf_block_403_no_prefill (av : AllowlistValidator)
    (hdr : InboundHeaders) (path : String)
    (hen : av.enabled = true)
    (hpath : path = ChatCompletionsPath ∨ path = CompletionsPath)
    (hhdr : hdr.prefillHostPort ≠ "")
    (hmiss : setHas av.allowedTargets (normalizeHostPort hdr.prefillHostPort) = false) :
    routeRequest "POST" path = .chatCompletions ∧
    chatCompletionsHandler av hdr =
      .forbidden 403
        ("Forbidden: prefill target not allowed by SSRF protection" ++ "\n") ∧
    (∃ pre post,
      ("Forbidden: prefill target not allowed by SSRF protection" ++ "\n") =
        pre ++ "prefill target not allowed by SSRF protection" ++ post) ∧
    ∀ t, chatCompletionsHandler av hdr ≠ .runProtocol t := by
  have hroute : routeRequest "POST" path = .chatCompletions := by
    unfold routeRequest
    rw [if_neg (by simp), if_pos ⟨rfl, hpath⟩]
  have hallowed : IsAllowed av hdr.prefillHostPort = false := by
    unfold IsAllowed
    rw [hen]
    simpa using hmiss
  have hout : chatCompletionsHandler av hdr =
      .forbidden 403
        ("Forbidden: prefill target not allowed by SSRF protection" ++ "\n") := by
    unfold chatCompletionsHandler
    simp only [if_neg hhdr]
    rw [hallowed]
    rfl
  refine ⟨hroute, hout, ⟨"Forbidden: ", "\n", rfl⟩, fun t ht => ?_⟩
  rw [hout] at ht
  exact DispatchOutcome.noConfusion ht

/-- C8 witness: allowlist `[10.0.0.5]`, header `evil.example:9000`. -/
theorem c8_ssrf_block_403_no_prefill_witness :
    routeRequest "POST" ChatCompletionsPath = .chatCompletions ∧
    chatCompletionsHandler ⟨true, ["10.0.0.5"]⟩ ⟨"evil.example:9000", ""⟩ =
      .forbidden 403
        ("Forbidden: prefill target not allowed by SSRF protection" ++ "\n") ∧
    (∃ pre post,
      ("Forbidden: prefill target not allowed by SSRF protection" ++ "\n") =
        pre ++ "prefill target not allowed by SSRF protection" ++ post) ∧
    ∀ t, chatCompletionsHandler ⟨true, ["10.0.0.5"]⟩ ⟨"evil.example:9000", ""⟩ ≠
      .runProtocol t :=
  c8_ssrf_block_403_no_prefill ⟨true, ["10.0.0.5"]⟩ ⟨"evil.example:9000", ""⟩
    ChatCompletionsPath rfl (Or.inl rfl) (by decide) (by decide)
